import Mathlib

/-!
Shallow embedding of `checkDroppedFrames` from `droppedFrames.py`
(crux888/gmn-droppedframes).

The function scans a directory for `*.fits` files, extracts a timestamp
from characters 10..24 of each basename (CPython
`datetime.strptime(fname[10:25], '%Y%m%d_%H%M%S')`), and walks the
lexicographically sorted file list once, reporting every consecutive pair
of successfully parsed timestamps whose difference strictly exceeds
`DROPPED_FRAME_TDELTA = timedelta(seconds=15)`.

Machine-level conventions of the embedding:
* datetimes are records of (year, month, day, hour, minute, second);
  a directory listing is a `List String` of basenames;
* `datetime.strptime` is embedded as the backtracking regex matcher that
  CPython's `_strptime` builds for the format `'%Y%m%d_%H%M%S'`
  (`\d\d\d\d`, `1[0-2]|0[1-9]|[1-9]`, `3[01]|[12]\d|0[1-9]|[1-9]`, `_`,
  `2[0-3]|[0-1]\d|\d`, `[0-5]\d|\d`, `6[0-1]|[0-5]\d|\d`, full match
  required, first match wins), followed by the range validation performed
  by the `datetime` constructor;
* a `timedelta` between two whole-second datetimes is its signed total
  number of seconds (an `Int`); its `.seconds` attribute is the Python
  floor-mod by 86400 (`Int.emod`); `timedelta` comparison is `Int`
  comparison of the totals;
* `int(statistics.mean(xs))` on naturals is truncated (= floor) division
  of the sum by the length.
-/

namespace DroppedFrames

/-- A parsed calendar timestamp (what `datetime.strptime` returns; the
script's format has no sub-second field, so microseconds are always 0). -/
structure DateTime where
  year : Nat
  month : Nat
  day : Nat
  hour : Nat
  minute : Nat
  second : Nat
deriving DecidableEq, Repr

/-- Character in an inclusive code-point range (a regex character class
such as `[0-9]`). -/
def inRange (lo hi : Nat) (c : Char) : Bool :=
  lo ≤ c.toNat && c.toNat ≤ hi

/-- `\d` of the strptime regex. -/
def isDig (c : Char) : Bool := inRange 48 57 c

/-- Numeric value of a digit character. -/
def digVal (c : Char) : Nat := c.toNat - 48

/-- `(?P<Y>\d\d\d\d)` — `%Y` in CPython `_strptime.TimeRE`. -/
def matchY : List Char → List (Nat × List Char)
  | a :: b :: c :: d :: rest =>
    if isDig a && isDig b && isDig c && isDig d then
      [(digVal a * 1000 + digVal b * 100 + digVal c * 10 + digVal d, rest)]
    else []
  | _ => []

/-- `(?P<m>1[0-2]|0[1-9]|[1-9])` — `%m`; alternatives in regex order. -/
def matchMon (cs : List Char) : List (Nat × List Char) :=
  (match cs with
   | a :: b :: rest =>
     if a = '1' && inRange 48 50 b then [(10 + digVal b, rest)] else []
   | _ => []) ++
  (match cs with
   | a :: b :: rest =>
     if a = '0' && inRange 49 57 b then [(digVal b, rest)] else []
   | _ => []) ++
  (match cs with
   | a :: rest => if inRange 49 57 a then [(digVal a, rest)] else []
   | _ => [])

/-- `(?P<d>3[01]|[12]\d|0[1-9]|[1-9])` — `%d`; alternatives in regex order. -/
def matchDay (cs : List Char) : List (Nat × List Char) :=
  (match cs with
   | a :: b :: rest =>
     if a = '3' && inRange 48 49 b then [(30 + digVal b, rest)] else []
   | _ => []) ++
  (match cs with
   | a :: b :: rest =>
     if inRange 49 50 a && isDig b then [(digVal a * 10 + digVal b, rest)] else []
   | _ => []) ++
  (match cs with
   | a :: b :: rest =>
     if a = '0' && inRange 49 57 b then [(digVal b, rest)] else []
   | _ => []) ++
  (match cs with
   | a :: rest => if inRange 49 57 a then [(digVal a, rest)] else []
   | _ => [])

/-- `(?P<H>2[0-3]|[0-1]\d|\d)` — `%H`; alternatives in regex order. -/
def matchHour (cs : List Char) : List (Nat × List Char) :=
  (match cs with
   | a :: b :: rest =>
     if a = '2' && inRange 48 51 b then [(20 + digVal b, rest)] else []
   | _ => []) ++
  (match cs with
   | a :: b :: rest =>
     if inRange 48 49 a && isDig b then [(digVal a * 10 + digVal b, rest)] else []
   | _ => []) ++
  (match cs with
   | a :: rest => if isDig a then [(digVal a, rest)] else []
   | _ => [])

/-- `(?P<M>[0-5]\d|\d)` — `%M`; alternatives in regex order. -/
def matchMin (cs : List Char) : List (Nat × List Char) :=
  (match cs with
   | a :: b :: rest =>
     if inRange 48 53 a && isDig b then [(digVal a * 10 + digVal b, rest)] else []
   | _ => []) ++
  (match cs with
   | a :: rest => if isDig a then [(digVal a, rest)] else []
   | _ => [])

/-- `(?P<S>6[0-1]|[0-5]\d|\d)` — `%S`; alternatives in regex order. -/
def matchSec (cs : List Char) : List (Nat × List Char) :=
  (match cs with
   | a :: b :: rest =>
     if a = '6' && inRange 48 49 b then [(60 + digVal b, rest)] else []
   | _ => []) ++
  (match cs with
   | a :: b :: rest =>
     if inRange 48 53 a && isDig b then [(digVal a * 10 + digVal b, rest)] else []
   | _ => []) ++
  (match cs with
   | a :: rest => if isDig a then [(digVal a, rest)] else []
   | _ => [])

/-- The literal `_` of the format string. -/
def matchUnd : List Char → List (List Char)
  | c :: rest => if c = '_' then [rest] else []
  | _ => []

/-- All full matches of the regex CPython builds for `'%Y%m%d_%H%M%S'`,
in backtracking order; the engine uses the first one. -/
def strptimeMatches (cs : List Char) :
    List (Nat × Nat × Nat × Nat × Nat × Nat) :=
  (matchY cs).flatMap fun yr =>
  (matchMon yr.2).flatMap fun mr =>
  (matchDay mr.2).flatMap fun dr =>
  (matchUnd dr.2).flatMap fun r4 =>
  (matchHour r4).flatMap fun hr =>
  (matchMin hr.2).flatMap fun nr =>
  (matchSec nr.2).flatMap fun sr =>
  if sr.2 = [] then [(yr.1, mr.1, dr.1, hr.1, nr.1, sr.1)] else []

/-- Python leap-year rule (`calendar.isleap`). -/
def isLeap (y : Nat) : Bool := (y % 4 = 0 && y % 100 ≠ 0) || y % 400 = 0

/-- Length of a month, as validated by the `datetime` constructor. -/
def daysInMonth (y m : Nat) : Nat :=
  if m = 2 then (if isLeap y then 29 else 28)
  else if m = 4 || m = 6 || m = 9 || m = 11 then 30
  else 31

/-- The range validation done by `datetime(year, month, day, hour, minute,
second)`: `ValueError` (here `none`) outside these bounds.  The regex
already confines month/day/hour/minute to their coarse ranges, but the
constructor additionally rejects year 0, leap seconds 60–61 and days
beyond the month length. -/
def mkDateTime (y mo d h mi s : Nat) : Option DateTime :=
  if 1 ≤ y && y ≤ 9999 && 1 ≤ mo && mo ≤ 12 &&
     1 ≤ d && d ≤ daysInMonth y mo && h ≤ 23 && mi ≤ 59 && s ≤ 59 then
    some ⟨y, mo, d, h, mi, s⟩
  else none

/-- `datetime.strptime(s, '%Y%m%d_%H%M%S')` on a character list:
first full regex match, then constructor validation; `none` models the
`ValueError` the script catches. -/
def strptimeFF (cs : List Char) : Option DateTime :=
  match strptimeMatches cs with
  | [] => none
  | (y, mo, d, h, mi, s) :: _ => mkDateTime y mo d h mi s

/-- `fname[10:25]` — the fixed slice of the basename. -/
def sliceFF (name : String) : List Char :=
  (name.toList.drop 10).take 15

/-- Timestamp extraction for one FF file:
`datetime.strptime(fname[10:25], '%Y%m%d_%H%M%S')`. -/
def parseFF (name : String) : Option DateTime :=
  strptimeFF (sliceFF name)

/-- Days before 1 January of year `y` in the proleptic Gregorian calendar
(`datetime`'s `_days_before_year`). -/
def daysBeforeYear (y : Nat) : Nat :=
  365 * (y - 1) + ((y - 1) / 4 - (y - 1) / 100) + (y - 1) / 400

/-- Days before the first of month `m` in a non-leap year. -/
def cumDays (m : Nat) : Nat :=
  match m with
  | 1 => 0 | 2 => 31 | 3 => 59 | 4 => 90 | 5 => 120 | 6 => 151
  | 7 => 181 | 8 => 212 | 9 => 243 | 10 => 273 | 11 => 304 | 12 => 334
  | _ => 365

/-- Days before the first of month `m` of year `y`
(`datetime`'s `_days_before_month`). -/
def daysBeforeMonth (y m : Nat) : Nat :=
  cumDays m + (if 2 < m && isLeap y then 1 else 0)

/-- Proleptic Gregorian ordinal of the date (`datetime.toordinal`). -/
def toOrdinal (dt : DateTime) : Nat :=
  daysBeforeYear dt.year + daysBeforeMonth dt.year dt.month + dt.day

/-- Absolute position of the datetime on a whole-second axis.  A
`timedelta` between two parsed datetimes is the difference of these; both
`timedelta` comparison and normalisation are determined by it. -/
def toSecondsZ (dt : DateTime) : Int :=
  ((toOrdinal dt * 86400 + dt.hour * 3600 + dt.minute * 60 + dt.second : Nat) : Int)

/-- The `.seconds` attribute of a whole-second `timedelta`: Python
normalises `timedelta` to `days` (floored) plus `seconds` in `[0, 86400)`,
so `.seconds` is the floor-mod of the total by 86400 — it drops whole
days, it is NOT `total_seconds()`. -/
def tdeltaSecondsAttr (total : Int) : Nat :=
  (total.emod 86400).toNat

/-- `DROPPED_FRAME_TDELTA = timedelta(seconds=15)`, in seconds. -/
def DROPPED_FRAME_TDELTA : Int := 15

/-- Zero-padded two-digit field of `strftime` (`%d`, `%H`, `%M`, `%S`). -/
def pad2 (n : Nat) : String :=
  if n < 10 then "0" ++ toString n else toString n

/-- Zero-padded `%Y`. -/
def pad4 (n : Nat) : String :=
  if n < 10 then "000" ++ toString n
  else if n < 100 then "00" ++ toString n
  else if n < 1000 then "0" ++ toString n
  else toString n

/-- `%b` in the C locale. -/
def monthAbbrev (m : Nat) : String :=
  match m with
  | 1 => "Jan" | 2 => "Feb" | 3 => "Mar" | 4 => "Apr" | 5 => "May"
  | 6 => "Jun" | 7 => "Jul" | 8 => "Aug" | 9 => "Sep" | 10 => "Oct"
  | 11 => "Nov" | 12 => "Dec" | _ => ""

/-- `dt.strftime('%d-%b-%Y %H:%M:%S')`. -/
def strftimeDMY (dt : DateTime) : String :=
  pad2 dt.day ++ "-" ++ monthAbbrev dt.month ++ "-" ++ pad4 dt.year ++ " " ++
  pad2 dt.hour ++ ":" ++ pad2 dt.minute ++ ":" ++ pad2 dt.second

/-- The separator the source file puts between the two timestamps.  The
bytes on line 331 of `droppedFrames.py` are `C3 A2 E2 80 A0 E2 80 99`,
i.e. the three characters U+00E2, U+2020, U+2019 (a mojibake rendering of
an arrow), surrounded by spaces — not the ASCII `' -> '`. -/
def arrowSep : String := " â†’ "

/-- One entry of `dropped_details`. -/
def detailLine (prev cur : DateTime) (secs : Nat) : String :=
  strftimeDMY prev ++ arrowSep ++ strftimeDMY cur ++ " = " ++
  toString secs ++ " seconds"

/-- The loop state of `checkDroppedFrames` (its local variables). -/
structure ScanState where
  files_analysed : Nat
  files_ignored : Nat
  dropped_frames : Nat
  dropped_times : List Nat
  dropped_details : List String
  previous_dt : Option DateTime
deriving DecidableEq, Repr

/-- The variable initialisation at the top of `checkDroppedFrames`. -/
def initState : ScanState :=
  { files_analysed := 0, files_ignored := 0, dropped_frames := 0,
    dropped_times := [], dropped_details := [], previous_dt := none }

/-- One iteration of the `for file in sorted(glob.glob(...))` loop. -/
def processFile (st : ScanState) (name : String) : ScanState :=
  match parseFF name with
  | none => { st with files_ignored := st.files_ignored + 1 }
  | some current_dt =>
    let st1 :=
      match st.previous_dt with
      | none => st
      | some previous_dt =>
        let tdelta : Int := toSecondsZ current_dt - toSecondsZ previous_dt
        if DROPPED_FRAME_TDELTA < tdelta then
          { st with
            dropped_frames := st.dropped_frames + 1,
            dropped_times :=
              st.dropped_times ++ [tdeltaSecondsAttr tdelta],
            dropped_details :=
              st.dropped_details ++
                [detailLine previous_dt current_dt (tdeltaSecondsAttr tdelta)] }
        else st
    { st1 with files_analysed := st1.files_analysed + 1,
               previous_dt := some current_dt }

/-- The whole loop, over an already globbed-and-sorted list of basenames. -/
def scanFiles (files : List String) : ScanState :=
  files.foldl processFile initState

/-- `glob.glob(directory + '/*.fits')` membership test on a basename:
`*` does not match a leading dot (hidden files), and the name must end in
`.fits`. -/
def matchesFFGlob (name : String) : Bool :=
  (!(name.toList.head? = some '.' : Bool)) &&
  (".fits".toList.isSuffixOf name.toList)

/-- Python string `<` (lexicographic by code point) as a `≤` test. -/
def pyLeList : List Char → List Char → Bool
  | [], _ => true
  | _ :: _, [] => false
  | a :: as, b :: bs =>
    if a = b then pyLeList as bs else decide (a.toNat < b.toNat)

/-- `≤` on basenames; `sorted` on the full paths compares the basenames
since the directory prefix is shared. -/
def pyStrLe (a b : String) : Bool := pyLeList a.toList b.toList

/-- Stable insertion into a sorted list. -/
def insertSorted (x : String) : List String → List String
  | [] => [x]
  | y :: ys => if pyStrLe x y then x :: y :: ys else y :: insertSorted x ys

/-- `sorted(...)` of Python: the listing in ascending lexicographic
order.  Duplicate basenames cannot occur in one directory, so any sorted
rearrangement is THE sorted list. -/
def sortedPy (l : List String) : List String :=
  l.foldr insertSorted []

/-- The dictionary returned by `checkDroppedFrames`. -/
structure AnalysisResult where
  files_analysed : Nat
  files_ignored : Nat
  dropped_frames : Nat
  dropped_average : Nat
  dropped_details : List String
deriving DecidableEq, Repr

/-- The epilogue of `checkDroppedFrames`: `int(mean(dropped_times))`
when any gap was found (exact mean of naturals truncated toward zero =
floor division), else the initial 0. -/
def analysisOf (st : ScanState) : AnalysisResult :=
  { files_analysed := st.files_analysed,
    files_ignored := st.files_ignored,
    dropped_frames := st.dropped_frames,
    dropped_average :=
      if st.dropped_frames ≠ 0 then
        st.dropped_times.sum / st.dropped_times.length
      else 0,
    dropped_details := st.dropped_details }

/-- `checkDroppedFrames(directory)` as a function of the directory
listing (basenames, any order): glob filter, sort, single-pass scan,
result assembly. -/
def checkDroppedFrames (listing : List String) : AnalysisResult :=
  analysisOf (scanFiles (sortedPy (listing.filter matchesFFGlob)))

end DroppedFrames

namespace DroppedFrames

/-! ### Basic step lemmas about the loop body -/

/-- A parse failure only bumps `files_ignored`. -/
lemma processFile_of_parse_none {name : String} (st : ScanState)
    (h : parseFF name = none) :
    processFile st name = { st with files_ignored := st.files_ignored + 1 } := by
  simp [processFile, h]

/-- First successfully parsed file: no previous timestamp, only
`files_analysed` and `previous_dt` move. -/
lemma processFile_some_none {name : String} {cur : DateTime} {st : ScanState}
    (h : parseFF name = some cur) (hp : st.previous_dt = none) :
    processFile st name =
      { st with files_analysed := st.files_analysed + 1,
                previous_dt := some cur } := by
  simp [processFile, h, hp]

/-- A reported gap: the comparison succeeded strictly. -/
lemma processFile_some_some_report {name : String} {cur prev : DateTime}
    {st : ScanState} (h : parseFF name = some cur)
    (hp : st.previous_dt = some prev)
    (hgt : DROPPED_FRAME_TDELTA < toSecondsZ cur - toSecondsZ prev) :
    processFile st name =
      { st with
        files_analysed := st.files_analysed + 1,
        previous_dt := some cur,
        dropped_frames := st.dropped_frames + 1,
        dropped_times :=
          st.dropped_times ++ [tdeltaSecondsAttr (toSecondsZ cur - toSecondsZ prev)],
        dropped_details :=
          st.dropped_details ++
            [detailLine prev cur (tdeltaSecondsAttr (toSecondsZ cur - toSecondsZ prev))] } := by
  simp [processFile, h, hp, hgt]

/-- An unreported pair: the gap is at most the threshold. -/
lemma processFile_some_some_skip {name : String} {cur prev : DateTime}
    {st : ScanState} (h : parseFF name = some cur)
    (hp : st.previous_dt = some prev)
    (hle : ¬ DROPPED_FRAME_TDELTA < toSecondsZ cur - toSecondsZ prev) :
    processFile st name =
      { st with files_analysed := st.files_analysed + 1,
                previous_dt := some cur } := by
  simp [processFile, h, hp, hle]

/-- Each loop iteration increments exactly one of the two file counters. -/
lemma processFile_counts (st : ScanState) (name : String) :
    (processFile st name).files_analysed + (processFile st name).files_ignored =
      st.files_analysed + st.files_ignored + 1 := by
  cases h : parseFF name with
  | none => rw [processFile_of_parse_none st h]; simp; omega
  | some cur =>
    cases hp : st.previous_dt with
    | none => rw [processFile_some_none h hp]; simp; omega
    | some prev =>
      by_cases hgt : DROPPED_FRAME_TDELTA < toSecondsZ cur - toSecondsZ prev
      · rw [processFile_some_some_report h hp hgt]; simp; omega
      · rw [processFile_some_some_skip h hp hgt]; simp; omega

/-- Counter bookkeeping over the whole fold. -/
lemma foldl_counts (l : List String) : ∀ st : ScanState,
    (l.foldl processFile st).files_analysed + (l.foldl processFile st).files_ignored =
      st.files_analysed + st.files_ignored + l.length := by
  induction l with
  | nil => intro st; simp
  | cons f t ih =>
    intro st
    simp only [List.foldl_cons, List.length_cons]
    rw [ih, processFile_counts]
    omega

/-- Inserting keeps the length. -/
lemma insertSorted_length (x : String) (l : List String) :
    (insertSorted x l).length = l.length + 1 := by
  induction l with
  | nil => rfl
  | cons y ys ih =>
    simp only [insertSorted]
    split <;> simp [ih]

/-- Sorting keeps the length. -/
lemma sortedPy_length (l : List String) : (sortedPy l).length = l.length := by
  induction l with
  | nil => rfl
  | cons x t ih =>
    simp only [sortedPy, List.foldr_cons] at *
    rw [insertSorted_length, ih]
    simp

/-- The loop body never reads `files_ignored`: bumping it first or last
gives the same state. -/
lemma processFile_ignored_bump (st : ScanState) (name : String) :
    processFile { st with files_ignored := st.files_ignored + 1 } name =
      { processFile st name with
        files_ignored := (processFile st name).files_ignored + 1 } := by
  cases h : parseFF name with
  | none =>
    rw [processFile_of_parse_none st h,
        processFile_of_parse_none { st with files_ignored := st.files_ignored + 1 } h]
  | some cur =>
    cases hp : st.previous_dt with
    | none =>
      rw [processFile_some_none h hp, processFile_some_none h rfl]
    | some prev =>
      by_cases hgt : DROPPED_FRAME_TDELTA < toSecondsZ cur - toSecondsZ prev
      · rw [processFile_some_some_report h hp hgt,
            processFile_some_some_report h rfl hgt]
      · rw [processFile_some_some_skip h hp hgt,
            processFile_some_some_skip h rfl hgt]

/-- The same commutation over the remainder of the scan. -/
lemma foldl_ignored_bump (l : List String) : ∀ st : ScanState,
    l.foldl processFile { st with files_ignored := st.files_ignored + 1 } =
      { l.foldl processFile st with
        files_ignored := (l.foldl processFile st).files_ignored + 1 } := by
  induction l with
  | nil => intro st; rfl
  | cons f t ih =>
    intro st
    simp only [List.foldl_cons]
    rw [processFile_ignored_bump, ih]

/-! ### The scan invariant -/

/-- Facts maintained by every loop iteration: the gap counter equals the
length of the recorded-duration list, every recorded duration fits in a
day, and every detail line was produced by the formatter from such a
duration. -/
def ScanInv (st : ScanState) : Prop :=
  st.dropped_frames = st.dropped_times.length ∧
  (∀ t ∈ st.dropped_times, t ≤ 86399) ∧
  (∀ d ∈ st.dropped_details, ∃ p c t, t ≤ 86399 ∧ d = detailLine p c t)

/-- The `.seconds` attribute of a `timedelta` always lies below one day. -/
lemma tdeltaSecondsAttr_le (total : Int) : tdeltaSecondsAttr total ≤ 86399 := by
  unfold tdeltaSecondsAttr
  have h1 : total.emod 86400 < 86400 := Int.emod_lt_of_pos total (by norm_num)
  have h2 : 0 ≤ total.emod 86400 := Int.emod_nonneg total (by norm_num)
  omega

lemma scanInv_init : ScanInv initState := by
  refine ⟨rfl, ?_, ?_⟩ <;> intro x hx <;> simp [initState] at hx

lemma scanInv_step {st : ScanState} (name : String) (h : ScanInv st) :
    ScanInv (processFile st name) := by
  obtain ⟨hlen, htimes, hdet⟩ := h
  cases hp : parseFF name with
  | none =>
    rw [processFile_of_parse_none st hp]
    exact ⟨hlen, htimes, hdet⟩
  | some cur =>
    cases hprev : st.previous_dt with
    | none =>
      rw [processFile_some_none hp hprev]
      exact ⟨hlen, htimes, hdet⟩
    | some prev =>
      by_cases hgt : DROPPED_FRAME_TDELTA < toSecondsZ cur - toSecondsZ prev
      · rw [processFile_some_some_report hp hprev hgt]
        refine ⟨?_, ?_, ?_⟩
        · simp [hlen]
        · intro t ht
          rcases List.mem_append.mp ht with ht | ht
          · exact htimes t ht
          · rcases List.mem_singleton.mp ht with rfl
            exact tdeltaSecondsAttr_le _
        · intro d hd
          rcases List.mem_append.mp hd with hd | hd
          · exact hdet d hd
          · rcases List.mem_singleton.mp hd with rfl
            exact ⟨prev, cur, _, tdeltaSecondsAttr_le _, rfl⟩
      · rw [processFile_some_some_skip hp hprev hgt]
        exact ⟨hlen, htimes, hdet⟩

lemma scanInv_foldl (l : List String) : ∀ st : ScanState,
    ScanInv st → ScanInv (l.foldl processFile st) := by
  induction l with
  | nil => intro st h; exact h
  | cons f t ih =>
    intro st h
    simp only [List.foldl_cons]
    exact ih _ (scanInv_step f h)

/-- The invariant holds of every completed scan. -/
lemma scanInv_scanFiles (l : List String) : ScanInv (scanFiles l) :=
  scanInv_foldl l initState scanInv_init

/-! ### Claim theorems -/

/-- C5: a filename whose timestamp substring fails to parse only bumps
`files_ignored`: wherever it sits in the scanned sequence, the final state
is exactly the state of the scan without it, with `files_ignored` one
higher — so `files_analysed` is untouched and the previous-timestamp
chain links the surrounding successfully parsed files directly. -/
theorem C5_parse_failure_skips_and_keeps_chain
    (l1 l2 : List String) (bad : String) (h : parseFF bad = none) :
    scanFiles (l1 ++ bad :: l2) =
      { scanFiles (l1 ++ l2) with
        files_ignored := (scanFiles (l1 ++ l2)).files_ignored + 1 } := by
  unfold scanFiles
  rw [List.foldl_append, List.foldl_cons, List.foldl_append,
      processFile_of_parse_none _ h, foldl_ignored_bump]

/-- C5 witness: a malformed name between two good ones is counted in
`files_ignored` and the 90-second gap between its neighbours is still
detected against the last successfully parsed timestamp. -/
theorem C5_witness :
    parseFF "FF_UK0034_XXXXXXXX_XXXXXX.fits" = none ∧
    scanFiles (["FF_UK0034_20230413_192730_486556_0000000.fits"] ++
        "FF_UK0034_XXXXXXXX_XXXXXX.fits" ::
        ["FF_UK0034_20230413_192900_486556_0000000.fits"]) =
      { scanFiles (["FF_UK0034_20230413_192730_486556_0000000.fits"] ++
          ["FF_UK0034_20230413_192900_486556_0000000.fits"]) with
        files_ignored :=
          (scanFiles (["FF_UK0034_20230413_192730_486556_0000000.fits"] ++
            ["FF_UK0034_20230413_192900_486556_0000000.fits"])).files_ignored + 1 } :=
  ⟨by decide, C5_parse_failure_skips_and_keeps_chain _ _ _ (by decide)⟩

/-- C6: the scan is a total function into `AnalysisResult` — there is no
error alternative in its type — and any listing with no `*.fits` match
(an empty or non-existent directory gives the empty listing) returns the
all-zero, empty-details result. -/
theorem C6_no_match_zero_result (l : List String)
    (h : l.filter matchesFFGlob = []) :
    checkDroppedFrames l =
      { files_analysed := 0, files_ignored := 0, dropped_frames := 0,
        dropped_average := 0, dropped_details := [] } := by
  unfold checkDroppedFrames
  rw [h]
  rfl

/-- C6 witness: the empty listing, and a non-empty directory with no
`.fits` file, both yield the zero result. -/
theorem C6_witness :
    ([] : List String).filter matchesFFGlob = [] ∧
    (["UK0034_20230413_192722_stack_meteors.jpg"].filter matchesFFGlob = []) ∧
    checkDroppedFrames [] =
      { files_analysed := 0, files_ignored := 0, dropped_frames := 0,
        dropped_average := 0, dropped_details := [] } ∧
    checkDroppedFrames ["UK0034_20230413_192722_stack_meteors.jpg"] =
      { files_analysed := 0, files_ignored := 0, dropped_frames := 0,
        dropped_average := 0, dropped_details := [] } :=
  ⟨by decide, by decide, C6_no_match_zero_result [] (by decide),
    C6_no_match_zero_result _ (by decide)⟩

/-- C7: every file matching the glob is counted exactly once — the two
counters of the result partition the matching files. -/
theorem C7_analysed_plus_ignored (l : List String) :
    (checkDroppedFrames l).files_analysed + (checkDroppedFrames l).files_ignored =
      (l.filter matchesFFGlob).length := by
  unfold checkDroppedFrames analysisOf scanFiles
  have h := foldl_counts (sortedPy (l.filter matchesFFGlob)) initState
  simpa [initState, sortedPy_length] using h

/-- C8: the result is a deterministic function of the sorted matching
filename list, so two scans of an unchanged directory agree on all five
result fields. -/
theorem C8_deterministic (l1 l2 : List String)
    (h : sortedPy (l1.filter matchesFFGlob) = sortedPy (l2.filter matchesFFGlob)) :
    checkDroppedFrames l1 = checkDroppedFrames l2 := by
  unfold checkDroppedFrames
  rw [h]

/-- C8 witness: two listings of the same directory content (one with an
extra non-matching file) give the identical result. -/
theorem C8_witness :
    sortedPy ((["FF_UK0034_20230413_192722_486556_0000000.fits",
        "notes.txt"] : List String).filter matchesFFGlob) =
      sortedPy ((["FF_UK0034_20230413_192722_486556_0000000.fits"] :
        List String).filter matchesFFGlob) ∧
    checkDroppedFrames ["FF_UK0034_20230413_192722_486556_0000000.fits",
        "notes.txt"] =
      checkDroppedFrames ["FF_UK0034_20230413_192722_486556_0000000.fits"] :=
  ⟨by decide, C8_deterministic _ _ (by decide)⟩

/-- C1 counterexample: two files one day plus 90 seconds apart.  Both
parse, the gap's whole-second total (`total_seconds()`) is 86490, yet the
value recorded into the gap-duration list is 90 — `tdelta.seconds`, not
the truncated `total_seconds()` the claim asserts for gaps of one day or
more. -/
theorem C1_counterexample :
    parseFF "FF_UK0034_20230413_192722_486556_0000000.fits" =
      some ⟨2023, 4, 13, 19, 27, 22⟩ ∧
    parseFF "FF_UK0034_20230414_192852_486556_0000000.fits" =
      some ⟨2023, 4, 14, 19, 28, 52⟩ ∧
    toSecondsZ ⟨2023, 4, 14, 19, 28, 52⟩ - toSecondsZ ⟨2023, 4, 13, 19, 27, 22⟩ =
      86490 ∧
    (scanFiles ["FF_UK0034_20230413_192722_486556_0000000.fits",
        "FF_UK0034_20230414_192852_486556_0000000.fits"]).dropped_frames = 1 ∧
    (scanFiles ["FF_UK0034_20230413_192722_486556_0000000.fits",
        "FF_UK0034_20230414_192852_486556_0000000.fits"]).dropped_times = [90] ∧
    ¬ (scanFiles ["FF_UK0034_20230413_192722_486556_0000000.fits",
        "FF_UK0034_20230414_192852_486556_0000000.fits"]).dropped_times = [86490] := by
  refine ⟨by decide, by decide, by decide, by decide, by decide, by decide⟩

/-- C1 (amended): for every detected gap the recorded value is the
`seconds` attribute of the normalised `timedelta` — the gap total
floor-reduced modulo 86400, whole days discarded; it coincides with the
truncated `total_seconds()` only for gaps under one day. -/
theorem C1_recorded_gap_value (st : ScanState) (name : String)
    (prev cur : DateTime) (h : parseFF name = some cur)
    (hp : st.previous_dt = some prev)
    (hgt : DROPPED_FRAME_TDELTA < toSecondsZ cur - toSecondsZ prev) :
    (processFile st name).dropped_times =
      st.dropped_times ++
        [((toSecondsZ cur - toSecondsZ prev).emod 86400).toNat] ∧
    (toSecondsZ cur - toSecondsZ prev < 86400 →
      (((toSecondsZ cur - toSecondsZ prev).emod 86400).toNat : Int) =
        toSecondsZ cur - toSecondsZ prev) := by
  constructor
  · rw [processFile_some_some_report h hp hgt]
    rfl
  · intro hlt
    have h15 : (15 : Int) < toSecondsZ cur - toSecondsZ prev := hgt
    have heq : (toSecondsZ cur - toSecondsZ prev).emod 86400 =
        toSecondsZ cur - toSecondsZ prev :=
      Int.emod_eq_of_lt (by omega) hlt
    rw [heq, Int.toNat_of_nonneg (by omega)]

/-- C1 witness: the one-day-plus-90-second gap is recorded as
`86490 % 86400 = 90`, and a 90-second (sub-day) gap as its full 90. -/
theorem C1_witness :
    parseFF "FF_UK0034_20230414_192852_486556_0000000.fits" =
      some ⟨2023, 4, 14, 19, 28, 52⟩ ∧
    ({ initState with previous_dt := some ⟨2023, 4, 13, 19, 27, 22⟩ } :
        ScanState).previous_dt = some ⟨2023, 4, 13, 19, 27, 22⟩ ∧
    DROPPED_FRAME_TDELTA <
      toSecondsZ ⟨2023, 4, 14, 19, 28, 52⟩ - toSecondsZ ⟨2023, 4, 13, 19, 27, 22⟩ ∧
    (processFile { initState with previous_dt := some ⟨2023, 4, 13, 19, 27, 22⟩ }
        "FF_UK0034_20230414_192852_486556_0000000.fits").dropped_times =
      [] ++ [((toSecondsZ ⟨2023, 4, 14, 19, 28, 52⟩ -
        toSecondsZ ⟨2023, 4, 13, 19, 27, 22⟩).emod 86400).toNat] :=
  ⟨by decide, by decide, by decide,
    (C1_recorded_gap_value _ _ ⟨2023, 4, 13, 19, 27, 22⟩ ⟨2023, 4, 14, 19, 28, 52⟩
      (by decide) (by decide) (by decide)).1⟩

/-- C2 counterexample: on the spec's own three-file scenario the detail
string does not use the ASCII separator `' -> '` the claim requires —
the source file's literal is the three characters U+00E2 U+2020 U+2019. -/
theorem C2_counterexample :
    ¬ (checkDroppedFrames ["FF_UK0034_20230413_192722_486556_0000000.fits",
        "FF_UK0034_20230413_192730_486556_0000000.fits",
        "FF_UK0034_20230413_192900_486556_0000000.fits"]).dropped_details =
      ["13-Apr-2023 19:27:30 -> 13-Apr-2023 19:29:00 = 90 seconds"] := by
  decide

/-- C2 (amended): for every detected gap the string appended to the
detail list is exactly
`<previous formatted> ++ SEP ++ <current formatted> ++ " = " ++ <N> ++ " seconds"`
with day-month-year hour:minute:second formatting, where `SEP` is the
source's `' â†’ '` (not `' -> '`); and on the concrete three-file
scenario this gives the claimed counts, average 90, and the one detail
line with that separator. -/
theorem C2_detail_format :
    (∀ (st : ScanState) (name : String) (prev cur : DateTime),
      parseFF name = some cur → st.previous_dt = some prev →
      DROPPED_FRAME_TDELTA < toSecondsZ cur - toSecondsZ prev →
      (processFile st name).dropped_details =
        st.dropped_details ++
          [strftimeDMY prev ++ arrowSep ++ strftimeDMY cur ++ " = " ++
            toString (tdeltaSecondsAttr (toSecondsZ cur - toSecondsZ prev)) ++
            " seconds"]) ∧
    checkDroppedFrames ["FF_UK0034_20230413_192722_486556_0000000.fits",
        "FF_UK0034_20230413_192730_486556_0000000.fits",
        "FF_UK0034_20230413_192900_486556_0000000.fits"] =
      { files_analysed := 3, files_ignored := 0, dropped_frames := 1,
        dropped_average := 90,
        dropped_details :=
          ["13-Apr-2023 19:27:30 â†’ 13-Apr-2023 19:29:00 = 90 seconds"] } := by
  constructor
  · intro st name prev cur h hp hgt
    rw [processFile_some_some_report h hp hgt]
    rfl
  · decide

/-- C2 witness: the universal detail-format conclusion applied to the
scenario's own reported pair (19:27:30 to 19:29:00, a 90-second gap). -/
theorem C2_witness :
    parseFF "FF_UK0034_20230413_192900_486556_0000000.fits" =
      some ⟨2023, 4, 13, 19, 29, 0⟩ ∧
    ({ initState with previous_dt := some ⟨2023, 4, 13, 19, 27, 30⟩ } :
        ScanState).previous_dt = some ⟨2023, 4, 13, 19, 27, 30⟩ ∧
    DROPPED_FRAME_TDELTA <
      toSecondsZ ⟨2023, 4, 13, 19, 29, 0⟩ - toSecondsZ ⟨2023, 4, 13, 19, 27, 30⟩ ∧
    (processFile { initState with previous_dt := some ⟨2023, 4, 13, 19, 27, 30⟩ }
        "FF_UK0034_20230413_192900_486556_0000000.fits").dropped_details =
      [] ++ [strftimeDMY ⟨2023, 4, 13, 19, 27, 30⟩ ++ arrowSep ++
        strftimeDMY ⟨2023, 4, 13, 19, 29, 0⟩ ++ " = " ++
        toString (tdeltaSecondsAttr (toSecondsZ ⟨2023, 4, 13, 19, 29, 0⟩ -
          toSecondsZ ⟨2023, 4, 13, 19, 27, 30⟩)) ++ " seconds"] :=
  ⟨by decide, by decide, by decide,
    C2_detail_format.1 { initState with previous_dt := some ⟨2023, 4, 13, 19, 27, 30⟩ }
      "FF_UK0034_20230413_192900_486556_0000000.fits"
      ⟨2023, 4, 13, 19, 27, 30⟩ ⟨2023, 4, 13, 19, 29, 0⟩
      (by decide) (by decide) (by decide)⟩

/-- C3: the threshold comparison is strict.  For any consecutive pair of
successfully parsed timestamps, the gap counter and the detail list grow
exactly when the gap strictly exceeds `DROPPED_FRAME_TDELTA` — a gap equal
to the threshold leaves both untouched, a gap of threshold plus one
second is reported. -/
theorem C3_threshold_strict (st : ScanState) (name : String)
    (prev cur : DateTime) (h : parseFF name = some cur)
    (hp : st.previous_dt = some prev) :
    (processFile st name).dropped_frames =
      st.dropped_frames +
        (if DROPPED_FRAME_TDELTA < toSecondsZ cur - toSecondsZ prev then 1 else 0) ∧
    (processFile st name).dropped_details =
      st.dropped_details ++
        (if DROPPED_FRAME_TDELTA < toSecondsZ cur - toSecondsZ prev then
          [detailLine prev cur
            (tdeltaSecondsAttr (toSecondsZ cur - toSecondsZ prev))]
        else []) := by
  by_cases hgt : DROPPED_FRAME_TDELTA < toSecondsZ cur - toSecondsZ prev
  · rw [processFile_some_some_report h hp hgt]
    simp [hgt]
  · rw [processFile_some_some_skip h hp hgt]
    simp [hgt]

/-- C3 witness: with the previous file at 19:27:22, a file exactly 15
seconds later (the threshold) is not reported, and a file 16 seconds
later is. -/
theorem C3_witness :
    (processFile { initState with previous_dt := some ⟨2023, 4, 13, 19, 27, 22⟩ }
        "FF_UK0034_20230413_192737_486556_0000000.fits").dropped_frames = 0 ∧
    (processFile { initState with previous_dt := some ⟨2023, 4, 13, 19, 27, 22⟩ }
        "FF_UK0034_20230413_192737_486556_0000000.fits").dropped_details = [] ∧
    (processFile { initState with previous_dt := some ⟨2023, 4, 13, 19, 27, 22⟩ }
        "FF_UK0034_20230413_192738_486556_0000000.fits").dropped_frames = 1 := by
  have h15 := C3_threshold_strict
    { initState with previous_dt := some ⟨2023, 4, 13, 19, 27, 22⟩ }
    "FF_UK0034_20230413_192737_486556_0000000.fits"
    ⟨2023, 4, 13, 19, 27, 22⟩ ⟨2023, 4, 13, 19, 27, 37⟩ (by decide) (by decide)
  have h16 := C3_threshold_strict
    { initState with previous_dt := some ⟨2023, 4, 13, 19, 27, 22⟩ }
    "FF_UK0034_20230413_192738_486556_0000000.fits"
    ⟨2023, 4, 13, 19, 27, 22⟩ ⟨2023, 4, 13, 19, 27, 38⟩ (by decide) (by decide)
  refine ⟨?_, ?_, ?_⟩
  · rw [h15.1]; decide
  · rw [h15.2]; decide
  · rw [h16.1]; decide

/-- C4: the reported average is the truncated arithmetic mean of the
recorded gap durations — 0 when no gap was found, and otherwise the
unique integer `a` with `a * n ≤ sum < (a + 1) * n` over the `n` recorded
durations; on a directory with gaps of 20, 30 and 25 seconds it is 25. -/
theorem C4_average (l : List String) :
    ((scanFiles (sortedPy (l.filter matchesFFGlob))).dropped_frames = 0 →
      (checkDroppedFrames l).dropped_average = 0) ∧
    ((scanFiles (sortedPy (l.filter matchesFFGlob))).dropped_frames ≠ 0 →
      (checkDroppedFrames l).dropped_average *
          (scanFiles (sortedPy (l.filter matchesFFGlob))).dropped_times.length ≤
        (scanFiles (sortedPy (l.filter matchesFFGlob))).dropped_times.sum ∧
      (scanFiles (sortedPy (l.filter matchesFFGlob))).dropped_times.sum <
        ((checkDroppedFrames l).dropped_average + 1) *
          (scanFiles (sortedPy (l.filter matchesFFGlob))).dropped_times.length) := by
  set st := scanFiles (sortedPy (l.filter matchesFFGlob)) with hst
  constructor
  · intro h0
    simp [checkDroppedFrames, analysisOf, ← hst, h0]
  · intro hne
    have hlen : st.dropped_frames = st.dropped_times.length :=
      (scanInv_scanFiles (sortedPy (l.filter matchesFFGlob))).1
    have hpos : 0 < st.dropped_times.length := by omega
    have havg : (checkDroppedFrames l).dropped_average =
        st.dropped_times.sum / st.dropped_times.length := by
      simp [checkDroppedFrames, analysisOf, ← hst, hne]
    rw [havg]
    constructor
    · exact Nat.div_mul_le_self _ _
    · have hmod := Nat.div_add_mod st.dropped_times.sum st.dropped_times.length
      have hlt := Nat.mod_lt st.dropped_times.sum hpos
      nlinarith [hmod, hlt]

/-- C4 witness: four files 20, 30 and 25 seconds apart give three gaps
and average 25; an empty directory gives average 0. -/
theorem C4_witness :
    ((scanFiles (sortedPy ((["FF_UK0034_20230413_190000_486556_0000000.fits",
        "FF_UK0034_20230413_190020_486556_0000000.fits",
        "FF_UK0034_20230413_190050_486556_0000000.fits",
        "FF_UK0034_20230413_190115_486556_0000000.fits"] :
          List String).filter matchesFFGlob))).dropped_times = [20, 30, 25]) ∧
    (checkDroppedFrames ["FF_UK0034_20230413_190000_486556_0000000.fits",
        "FF_UK0034_20230413_190020_486556_0000000.fits",
        "FF_UK0034_20230413_190050_486556_0000000.fits",
        "FF_UK0034_20230413_190115_486556_0000000.fits"]).dropped_frames = 3 ∧
    (checkDroppedFrames ["FF_UK0034_20230413_190000_486556_0000000.fits",
        "FF_UK0034_20230413_190020_486556_0000000.fits",
        "FF_UK0034_20230413_190050_486556_0000000.fits",
        "FF_UK0034_20230413_190115_486556_0000000.fits"]).dropped_average * 3 ≤ 75 ∧
    75 < ((checkDroppedFrames ["FF_UK0034_20230413_190000_486556_0000000.fits",
        "FF_UK0034_20230413_190020_486556_0000000.fits",
        "FF_UK0034_20230413_190050_486556_0000000.fits",
        "FF_UK0034_20230413_190115_486556_0000000.fits"]).dropped_average + 1) * 3 ∧
    (checkDroppedFrames ["FF_UK0034_20230413_190000_486556_0000000.fits",
        "FF_UK0034_20230413_190020_486556_0000000.fits",
        "FF_UK0034_20230413_190050_486556_0000000.fits",
        "FF_UK0034_20230413_190115_486556_0000000.fits"]).dropped_average = 25 ∧
    (checkDroppedFrames []).dropped_average = 0 := by
  have h := (C4_average ["FF_UK0034_20230413_190000_486556_0000000.fits",
    "FF_UK0034_20230413_190020_486556_0000000.fits",
    "FF_UK0034_20230413_190050_486556_0000000.fits",
    "FF_UK0034_20230413_190115_486556_0000000.fits"]).2 (by decide)
  have h0 := (C4_average []).1 (by decide)
  exact ⟨by decide, by decide, by decide, by decide, by decide, h0⟩

/-- C10: every recorded gap duration lies in `[0, 86399]` (the `seconds`
attribute excludes whole days), every detail line was rendered from such
a value, and the reported average therefore also lies in `[0, 86399]` —
even when an actual gap spans a day or more. -/
theorem C10_range (l : List String) :
    (∀ t ∈ (scanFiles (sortedPy (l.filter matchesFFGlob))).dropped_times,
      t ≤ 86399) ∧
    (∀ d ∈ (scanFiles (sortedPy (l.filter matchesFFGlob))).dropped_details,
      ∃ p c t, t ≤ 86399 ∧ d = detailLine p c t) ∧
    (checkDroppedFrames l).dropped_average ≤ 86399 := by
  obtain ⟨hlen, htimes, hdet⟩ :=
    scanInv_scanFiles (sortedPy (l.filter matchesFFGlob))
  refine ⟨htimes, hdet, ?_⟩
  set st := scanFiles (sortedPy (l.filter matchesFFGlob)) with hst
  by_cases hne : st.dropped_frames = 0
  · simp [checkDroppedFrames, analysisOf, ← hst, hne]
  · have havg : (checkDroppedFrames l).dropped_average =
        st.dropped_times.sum / st.dropped_times.length := by
      simp [checkDroppedFrames, analysisOf, ← hst, hne]
    have hsum : st.dropped_times.sum ≤ st.dropped_times.length * 86399 := by
      have := List.sum_le_card_nsmul st.dropped_times 86399 htimes
      simpa [smul_eq_mul] using this
    have hpos : 0 < st.dropped_times.length := by omega
    rw [havg]
    calc st.dropped_times.sum / st.dropped_times.length
        ≤ st.dropped_times.length * 86399 / st.dropped_times.length :=
          Nat.div_le_div_right hsum
      _ = 86399 := Nat.mul_div_cancel_left _ hpos

/-! ### Characters consumable by the strptime regex (towards C9) -/

/-- The only characters any token of the `'%Y%m%d_%H%M%S'` regex can
consume: digits and the literal underscore. -/
def okChar (c : Char) : Bool := isDig c || c = '_'

lemma okChar_of_isDig {c : Char} (h : isDig c = true) : okChar c = true := by
  simp [okChar, h]

lemma isDig_of_inRange {lo hi : Nat} {c : Char} (h48 : 48 ≤ lo) (h57 : hi ≤ 57)
    (h : inRange lo hi c = true) : isDig c = true := by
  simp [inRange] at h
  simp [isDig, inRange]
  omega

lemma matchY_chars {cs r : List Char} {v : Nat} (h : (v, r) ∈ matchY cs)
    (hr : ∀ c ∈ r, okChar c = true) : ∀ c ∈ cs, okChar c = true := by
  match cs with
  | [] => simp [matchY] at h
  | [a] => simp [matchY] at h
  | [a, b] => simp [matchY] at h
  | [a, b, c] => simp [matchY] at h
  | a :: b :: c :: d :: rest =>
    simp only [matchY] at h
    split at h
    case isTrue hcond =>
      simp only [List.mem_singleton, Prod.mk.injEq] at h
      obtain ⟨-, rfl⟩ := h
      simp only [Bool.and_eq_true] at hcond
      intro x hx
      simp only [List.mem_cons] at hx
      rcases hx with rfl | rfl | rfl | rfl | hx
      · exact okChar_of_isDig hcond.1.1.1
      · exact okChar_of_isDig hcond.1.1.2
      · exact okChar_of_isDig hcond.1.2
      · exact okChar_of_isDig hcond.2
      · exact hr x hx
    case isFalse => simp at h

lemma matchMon_chars {cs r : List Char} {v : Nat} (h : (v, r) ∈ matchMon cs)
    (hr : ∀ c ∈ r, okChar c = true) : ∀ c ∈ cs, okChar c = true := by
  match cs with
  | [] => simp [matchMon] at h
  | [a] =>
    simp only [matchMon, List.mem_append] at h
    rcases h with (h | h) | h
    · simp at h
    · simp at h
    · split at h
      case isTrue hcond =>
        simp only [List.mem_singleton, Prod.mk.injEq] at h
        obtain ⟨-, rfl⟩ := h
        intro x hx
        simp only [List.mem_cons, List.not_mem_nil, or_false] at hx
        subst hx
        exact okChar_of_isDig (isDig_of_inRange (by omega) (by omega) hcond)
      case isFalse => simp at h
  | a :: b :: rest =>
    simp only [matchMon, List.mem_append] at h
    rcases h with (h | h) | h
    · split at h
      case isTrue hcond =>
        simp only [List.mem_singleton, Prod.mk.injEq] at h
        obtain ⟨-, rfl⟩ := h
        simp only [Bool.and_eq_true, decide_eq_true_eq] at hcond
        intro x hx
        simp only [List.mem_cons] at hx
        rcases hx with rfl | rfl | hx
        · rw [hcond.1]; decide
        · exact okChar_of_isDig (isDig_of_inRange (by omega) (by omega) hcond.2)
        · exact hr x hx
      case isFalse => simp at h
    · split at h
      case isTrue hcond =>
        simp only [List.mem_singleton, Prod.mk.injEq] at h
        obtain ⟨-, rfl⟩ := h
        simp only [Bool.and_eq_true, decide_eq_true_eq] at hcond
        intro x hx
        simp only [List.mem_cons] at hx
        rcases hx with rfl | rfl | hx
        · rw [hcond.1]; decide
        · exact okChar_of_isDig (isDig_of_inRange (by omega) (by omega) hcond.2)
        · exact hr x hx
      case isFalse => simp at h
    · split at h
      case isTrue hcond =>
        simp only [List.mem_singleton, Prod.mk.injEq] at h
        obtain ⟨-, rfl⟩ := h
        intro x hx
        simp only [List.mem_cons] at hx
        rcases hx with rfl | hx
        · exact okChar_of_isDig (isDig_of_inRange (by omega) (by omega) hcond)
        · exact hr x (List.mem_cons.mpr hx)
      case isFalse => simp at h

lemma matchDay_chars {cs r : List Char} {v : Nat} (h : (v, r) ∈ matchDay cs)
    (hr : ∀ c ∈ r, okChar c = true) : ∀ c ∈ cs, okChar c = true := by
  match cs with
  | [] => simp [matchDay] at h
  | [a] =>
    simp only [matchDay, List.mem_append] at h
    rcases h with ((h | h) | h) | h
    · simp at h
    · simp at h
    · simp at h
    · split at h
      case isTrue hcond =>
        simp only [List.mem_singleton, Prod.mk.injEq] at h
        obtain ⟨-, rfl⟩ := h
        intro x hx
        simp only [List.mem_cons, List.not_mem_nil, or_false] at hx
        subst hx
        exact okChar_of_isDig (isDig_of_inRange (by omega) (by omega) hcond)
      case isFalse => simp at h
  | a :: b :: rest =>
    simp only [matchDay, List.mem_append] at h
    rcases h with ((h | h) | h) | h
    · split at h
      case isTrue hcond =>
        simp only [List.mem_singleton, Prod.mk.injEq] at h
        obtain ⟨-, rfl⟩ := h
        simp only [Bool.and_eq_true, decide_eq_true_eq] at hcond
        intro x hx
        simp only [List.mem_cons] at hx
        rcases hx with rfl | rfl | hx
        · rw [hcond.1]; decide
        · exact okChar_of_isDig (isDig_of_inRange (by omega) (by omega) hcond.2)
        · exact hr x hx
      case isFalse => simp at h
    · split at h
      case isTrue hcond =>
        simp only [List.mem_singleton, Prod.mk.injEq] at h
        obtain ⟨-, rfl⟩ := h
        simp only [Bool.and_eq_true, decide_eq_true_eq] at hcond
        intro x hx
        simp only [List.mem_cons] at hx
        rcases hx with rfl | rfl | hx
        · exact okChar_of_isDig (isDig_of_inRange (by omega) (by omega) hcond.1)
        · exact okChar_of_isDig hcond.2
        · exact hr x hx
      case isFalse => simp at h
    · split at h
      case isTrue hcond =>
        simp only [List.mem_singleton, Prod.mk.injEq] at h
        obtain ⟨-, rfl⟩ := h
        simp only [Bool.and_eq_true, decide_eq_true_eq] at hcond
        intro x hx
        simp only [List.mem_cons] at hx
        rcases hx with rfl | rfl | hx
        · rw [hcond.1]; decide
        · exact okChar_of_isDig (isDig_of_inRange (by omega) (by omega) hcond.2)
        · exact hr x hx
      case isFalse => simp at h
    · split at h
      case isTrue hcond =>
        simp only [List.mem_singleton, Prod.mk.injEq] at h
        obtain ⟨-, rfl⟩ := h
        intro x hx
        simp only [List.mem_cons] at hx
        rcases hx with rfl | hx
        · exact okChar_of_isDig (isDig_of_inRange (by omega) (by omega) hcond)
        · exact hr x (List.mem_cons.mpr hx)
      case isFalse => simp at h

lemma matchHour_chars {cs r : List Char} {v : Nat} (h : (v, r) ∈ matchHour cs)
    (hr : ∀ c ∈ r, okChar c = true) : ∀ c ∈ cs, okChar c = true := by
  match cs with
  | [] => simp [matchHour] at h
  | [a] =>
    simp only [matchHour, List.mem_append] at h
    rcases h with (h | h) | h
    · simp at h
    · simp at h
    · split at h
      case isTrue hcond =>
        simp only [List.mem_singleton, Prod.mk.injEq] at h
        obtain ⟨-, rfl⟩ := h
        intro x hx
        simp only [List.mem_cons, List.not_mem_nil, or_false] at hx
        subst hx
        exact okChar_of_isDig hcond
      case isFalse => simp at h
  | a :: b :: rest =>
    simp only [matchHour, List.mem_append] at h
    rcases h with (h | h) | h
    · split at h
      case isTrue hcond =>
        simp only [List.mem_singleton, Prod.mk.injEq] at h
        obtain ⟨-, rfl⟩ := h
        simp only [Bool.and_eq_true, decide_eq_true_eq] at hcond
        intro x hx
        simp only [List.mem_cons] at hx
        rcases hx with rfl | rfl | hx
        · rw [hcond.1]; decide
        · exact okChar_of_isDig (isDig_of_inRange (by omega) (by omega) hcond.2)
        · exact hr x hx
      case isFalse => simp at h
    · split at h
      case isTrue hcond =>
        simp only [List.mem_singleton, Prod.mk.injEq] at h
        obtain ⟨-, rfl⟩ := h
        simp only [Bool.and_eq_true, decide_eq_true_eq] at hcond
        intro x hx
        simp only [List.mem_cons] at hx
        rcases hx with rfl | rfl | hx
        · exact okChar_of_isDig (isDig_of_inRange (by omega) (by omega) hcond.1)
        · exact okChar_of_isDig hcond.2
        · exact hr x hx
      case isFalse => simp at h
    · split at h
      case isTrue hcond =>
        simp only [List.mem_singleton, Prod.mk.injEq] at h
        obtain ⟨-, rfl⟩ := h
        intro x hx
        simp only [List.mem_cons] at hx
        rcases hx with rfl | hx
        · exact okChar_of_isDig hcond
        · exact hr x (List.mem_cons.mpr hx)
      case isFalse => simp at h

lemma matchMin_chars {cs r : List Char} {v : Nat} (h : (v, r) ∈ matchMin cs)
    (hr : ∀ c ∈ r, okChar c = true) : ∀ c ∈ cs, okChar c = true := by
  match cs with
  | [] => simp [matchMin] at h
  | [a] =>
    simp only [matchMin, List.mem_append] at h
    rcases h with h | h
    · simp at h
    · split at h
      case isTrue hcond =>
        simp only [List.mem_singleton, Prod.mk.injEq] at h
        obtain ⟨-, rfl⟩ := h
        intro x hx
        simp only [List.mem_cons, List.not_mem_nil, or_false] at hx
        subst hx
        exact okChar_of_isDig hcond
      case isFalse => simp at h
  | a :: b :: rest =>
    simp only [matchMin, List.mem_append] at h
    rcases h with h | h
    · split at h
      case isTrue hcond =>
        simp only [List.mem_singleton, Prod.mk.injEq] at h
        obtain ⟨-, rfl⟩ := h
        simp only [Bool.and_eq_true, decide_eq_true_eq] at hcond
        intro x hx
        simp only [List.mem_cons] at hx
        rcases hx with rfl | rfl | hx
        · exact okChar_of_isDig (isDig_of_inRange (by omega) (by omega) hcond.1)
        · exact okChar_of_isDig hcond.2
        · exact hr x hx
      case isFalse => simp at h
    · split at h
      case isTrue hcond =>
        simp only [List.mem_singleton, Prod.mk.injEq] at h
        obtain ⟨-, rfl⟩ := h
        intro x hx
        simp only [List.mem_cons] at hx
        rcases hx with rfl | hx
        · exact okChar_of_isDig hcond
        · exact hr x (List.mem_cons.mpr hx)
      case isFalse => simp at h

lemma matchSec_chars {cs r : List Char} {v : Nat} (h : (v, r) ∈ matchSec cs)
    (hr : ∀ c ∈ r, okChar c = true) : ∀ c ∈ cs, okChar c = true := by
  match cs with
  | [] => simp [matchSec] at h
  | [a] =>
    simp only [matchSec, List.mem_append] at h
    rcases h with (h | h) | h
    · simp at h
    · simp at h
    · split at h
      case isTrue hcond =>
        simp only [List.mem_singleton, Prod.mk.injEq] at h
        obtain ⟨-, rfl⟩ := h
        intro x hx
        simp only [List.mem_cons, List.not_mem_nil, or_false] at hx
        subst hx
        exact okChar_of_isDig hcond
      case isFalse => simp at h
  | a :: b :: rest =>
    simp only [matchSec, List.mem_append] at h
    rcases h with (h | h) | h
    · split at h
      case isTrue hcond =>
        simp only [List.mem_singleton, Prod.mk.injEq] at h
        obtain ⟨-, rfl⟩ := h
        simp only [Bool.and_eq_true, decide_eq_true_eq] at hcond
        intro x hx
        simp only [List.mem_cons] at hx
        rcases hx with rfl | rfl | hx
        · rw [hcond.1]; decide
        · exact okChar_of_isDig (isDig_of_inRange (by omega) (by omega) hcond.2)
        · exact hr x hx
      case isFalse => simp at h
    · split at h
      case isTrue hcond =>
        simp only [List.mem_singleton, Prod.mk.injEq] at h
        obtain ⟨-, rfl⟩ := h
        simp only [Bool.and_eq_true, decide_eq_true_eq] at hcond
        intro x hx
        simp only [List.mem_cons] at hx
        rcases hx with rfl | rfl | hx
        · exact okChar_of_isDig (isDig_of_inRange (by omega) (by omega) hcond.1)
        · exact okChar_of_isDig hcond.2
        · exact hr x hx
      case isFalse => simp at h
    · split at h
      case isTrue hcond =>
        simp only [List.mem_singleton, Prod.mk.injEq] at h
        obtain ⟨-, rfl⟩ := h
        intro x hx
        simp only [List.mem_cons] at hx
        rcases hx with rfl | hx
        · exact okChar_of_isDig hcond
        · exact hr x (List.mem_cons.mpr hx)
      case isFalse => simp at h

lemma matchUnd_chars {cs r : List Char} (h : r ∈ matchUnd cs)
    (hr : ∀ c ∈ r, okChar c = true) : ∀ c ∈ cs, okChar c = true := by
  match cs with
  | [] => simp [matchUnd] at h
  | a :: rest =>
    simp only [matchUnd] at h
    split at h
    case isTrue hcond =>
      simp only [List.mem_singleton] at h
      subst h
      intro x hx
      simp only [List.mem_cons] at hx
      rcases hx with rfl | hx
      · rw [hcond]; decide
      · exact hr x hx
    case isFalse => simp at h

/-- A string with a full regex match consists only of digits and
underscores. -/
lemma strptimeMatches_chars {cs : List Char}
    {v : Nat × Nat × Nat × Nat × Nat × Nat} (h : v ∈ strptimeMatches cs) :
    ∀ c ∈ cs, okChar c = true := by
  simp only [strptimeMatches, List.mem_flatMap] at h
  obtain ⟨⟨yv, yr⟩, hy, h⟩ := h
  obtain ⟨⟨mv, mr⟩, hm, h⟩ := h
  obtain ⟨⟨dv, dr⟩, hd, h⟩ := h
  obtain ⟨ur, hu, h⟩ := h
  obtain ⟨⟨hv, hrr⟩, hh, h⟩ := h
  obtain ⟨⟨nv, nr⟩, hn, h⟩ := h
  obtain ⟨⟨sv, sr⟩, hs, h⟩ := h
  have hempty : sr = [] := by
    by_contra hne
    rw [if_neg (by simpa using hne)] at h
    simp at h
  have h7 : ∀ c ∈ sr, okChar c = true := by
    rw [hempty]; intro c hc; simp at hc
  have h6 := matchSec_chars hs h7
  have h5 := matchMin_chars hn h6
  have h4 := matchHour_chars hh h5
  have h3 := matchUnd_chars hu h4
  have h2 := matchDay_chars hd h3
  have h1 := matchMon_chars hm h2
  exact matchY_chars hy h1

/-- One character outside the digit/underscore alphabet kills the parse. -/
lemma strptimeFF_eq_none_of_bad {cs : List Char} {c : Char} (hc : c ∈ cs)
    (hbad : okChar c = false) : strptimeFF cs = none := by
  cases hm : strptimeMatches cs with
  | nil => simp [strptimeFF, hm]
  | cons v t =>
    exfalso
    have hok := strptimeMatches_chars
      (show v ∈ strptimeMatches cs by rw [hm]; exact List.mem_cons_self v t) c hc
    rw [hbad] at hok
    exact Bool.false_ne_true hok

/-- C9: a matching filename whose basename has fewer than 25 characters
cannot crash the scan — the fixed `[10:25]` window just yields a short
slice that still contains the `s` of the mandatory `.fits` suffix (or is
empty), the strict-format parse fails as a caught error, and the file is
counted in `files_ignored` like any other malformed name. -/
theorem C9_short_basename_ignored (st : ScanState) (name : String)
    (hm : matchesFFGlob name = true) (hlen : name.length < 25) :
    parseFF name = none ∧
    processFile st name = { st with files_ignored := st.files_ignored + 1 } := by
  have hlen' : name.toList.length < 25 := hlen
  have hnone : parseFF name = none := by
    by_cases hL : name.toList.length ≤ 10
    · have hslice : sliceFF name = [] := by
        unfold sliceFF
        rw [List.drop_eq_nil_of_le hL]
        rfl
      unfold parseFF
      rw [hslice]
      decide
    · push_neg at hL
      have hsuf : (".fits".toList).isSuffixOf name.toList = true := by
        simp only [matchesFFGlob, Bool.and_eq_true] at hm
        exact hm.2
      obtain ⟨pre, hpre⟩ := List.isSuffixOf_iff_suffix.mp hsuf
      have hslice : sliceFF name = name.toList.drop 10 := by
        unfold sliceFF
        exact List.take_of_length_le (by rw [List.length_drop]; omega)
      have hprelen : 6 ≤ pre.length := by
        have hlen5 : pre.length + 5 = name.toList.length := by
          have hcongr := congrArg List.length hpre
          rw [List.length_append] at hcongr
          exact hcongr
        omega
      have hdropk : ∀ k ≤ 4, 's' ∈ (".fits".toList).drop k := by decide
      have hmem : 's' ∈ name.toList.drop 10 := by
        rw [← hpre, List.drop_append_eq_append_drop]
        exact List.mem_append_right _ (hdropk (10 - pre.length) (by omega))
      unfold parseFF
      rw [hslice]
      exact strptimeFF_eq_none_of_bad hmem (by decide)
  exact ⟨hnone, processFile_of_parse_none st hnone⟩

/-- C9 witness: a 15-character basename (`FF_UK44_20.fits`) matches the
glob, is shorter than 25 characters, fails to parse, and is ignored. -/
theorem C9_witness :
    matchesFFGlob "FF_UK44_20.fits" = true ∧
    ("FF_UK44_20.fits" : String).length < 25 ∧
    parseFF "FF_UK44_20.fits" = none ∧
    processFile initState "FF_UK44_20.fits" =
      { initState with files_ignored := initState.files_ignored + 1 } :=
  ⟨by decide, by decide,
    (C9_short_basename_ignored initState "FF_UK44_20.fits" (by decide) (by decide)).1,
    (C9_short_basename_ignored initState "FF_UK44_20.fits" (by decide) (by decide)).2⟩

/-- C10 witness: a one-day-plus-90-second gap is recorded as 90, inside
`[0, 86399]`, and the average of that scan is also inside the range. -/
theorem C10_witness :
    90 ∈ (scanFiles (sortedPy
      ((["FF_UK0034_20230413_192722_486556_0000000.fits",
        "FF_UK0034_20230414_192852_486556_0000000.fits"] :
          List String).filter matchesFFGlob))).dropped_times ∧
    90 ≤ 86399 ∧
    (checkDroppedFrames ["FF_UK0034_20230413_192722_486556_0000000.fits",
      "FF_UK0034_20230414_192852_486556_0000000.fits"]).dropped_average ≤ 86399 :=
  ⟨by decide,
    (C10_range ["FF_UK0034_20230413_192722_486556_0000000.fits",
      "FF_UK0034_20230414_192852_486556_0000000.fits"]).1 90 (by decide),
    (C10_range ["FF_UK0034_20230413_192722_486556_0000000.fits",
      "FF_UK0034_20230414_192852_486556_0000000.fits"]).2.2⟩

end DroppedFrames
